import Mathlib

/-!
Verification development for the rustLaunchSite supervision engine
(HunterZ/rustLaunchSite).  The C++ sources under src/ are shallowly embedded
as executable Lean definitions: pure request/response bookkeeping of the RCON
client (src/Rcon.cpp), the timer-thread loop and the Supervisor main loop
(src/MainCommon.cpp), the staged shutdown of the server process controller
(src/Server.cpp), and the update retry loops (src/MainCommon.cpp).  Machine
integers of the source are modelled as Nat/Int; blocking calls are split at
their suspension points into explicit phases; environment observations
(connection state, process-alive queries, update-check results) are passed in
as oracle parameters.
-/

namespace RLS

namespace Rcon

/-- Inbound RCON message as parsed from JSON by Rcon::WebsocketMessageHandler
(src/Rcon.cpp lines 306-356): an optional integer Identifier field, an
optional Type field, an optional Message field, plus the raw wire text that is
handed to broadcast handlers. -/
structure InMsg where
  identifier : Option Int
  msgType : Option String
  message : Option String
  raw : String
deriving Repr, DecidableEq

/-- Request/response bookkeeping state of the Rcon class: requests_ is the
std::set of pending identifiers (a duplicate-free list here), responses_ the
std::map from identifier to response body (an association list here). -/
structure State where
  requests : List Int
  responses : List (Int × String)
deriving Repr, DecidableEq

/-- Registered broadcast listeners (messageHandlers_), identified by opaque
tags, in registration order. -/
abbrev Listeners := List Nat

/-- Observable outcome of one run of the message branch of the websocket
handler: the message was dropped for carrying no Identifier field, dropped as
an unknown/stale response, delivered as the response to a pending request, or
routed to the broadcast listeners (recorded as the list of calls made, in
order, each receiving the raw wire text). -/
inductive Outcome where
  | droppedNoId
  | droppedUnknown
  | delivered (rid : Int)
  | broadcast (calls : List (Nat × String))
deriving Repr, DecidableEq

/-- Message branch of Rcon::WebsocketMessageHandler (src/Rcon.cpp lines
306-356).  A message with no Identifier field is dropped with a warning.  A
non-chat message with a non-zero identifier is matched against the pending
set: unknown identifiers are dropped, a first match stores the response body
(empty when the Message field is missing), erases the pending entry and wakes
all waiters.  Everything else (identifier zero, or Type "Chat", which arrives
with the sentinel identifier -1) is handed to every registered handler in
registration order. -/
def websocketMessageHandler (listeners : Listeners) (st : State) (m : InMsg) :
    State × Outcome :=
  let isChat := m.msgType = some "Chat"
  match m.identifier with
  | none => (st, .droppedNoId)
  | some rid =>
    if rid ≠ 0 ∧ ¬ isChat then
      if rid ∈ st.requests then
        let body := m.message.getD ""
        ({ requests := st.requests.erase rid
         , responses := (rid, body) :: st.responses.filter (fun p => p.1 ≠ rid) }
        , .delivered rid)
      else (st, .droppedUnknown)
    else (st, .broadcast (listeners.map (fun h => (h, m.raw))))

/-- Result of the non-blocking prefix of Rcon::SendCommand (src/Rcon.cpp lines
147-205): the updated bookkeeping state, the wire identifier used, and the
immediate return value when the call returns without waiting on the condition
variable (not connected, or zero timeout). -/
structure SendStart where
  state : State
  identifier : Int
  immediate : Option String
deriving Repr, DecidableEq

/-- Non-blocking prefix of Rcon::SendCommand.  When not connected the command
is ignored and the empty string returned.  Otherwise a fresh non-zero
identifier is allocated only when a timeout was specified (zero is the wire
identifier reserved for no-reply commands), the identifier is recorded as
pending only when non-zero, the command is transmitted, and the call returns
immediately with the empty string when the timeout is zero. -/
def sendCommandStart (connected : Bool) (freshId : Int)
    (timeoutMilliseconds : Nat) (st : State) : SendStart :=
  if ¬ connected then ⟨st, 0, some ""⟩
  else
    let identifier : Int := if timeoutMilliseconds ≠ 0 then freshId else 0
    let st1 : State :=
      if identifier ≠ 0 then { st with requests := st.requests.insert identifier }
      else st
    if timeoutMilliseconds = 0 then ⟨st1, identifier, some ""⟩
    else ⟨st1, identifier, none⟩

/-- Completion of Rcon::SendCommand once the condition-variable wait has ended
(src/Rcon.cpp lines 232-248), whether a response arrived or the timeout
elapsed: the pending identifier is erased unconditionally, then the response
map is consulted for the caller's own identifier only; a stored response is
moved out and returned, otherwise the empty string is returned. -/
def sendCommandFinish (identifier : Int) (st : State) : State × String :=
  let st1 : State := { st with requests := st.requests.erase identifier }
  match List.lookup identifier st1.responses with
  | none => (st1, "")
  | some r =>
      ({ st1 with responses := st1.responses.eraseP (fun p => p.1 == identifier) }
      , r)

end Rcon

namespace Sched

/-- Commanded state of the timer thread (enum TimerState in
src/MainCommon.cpp). -/
inductive TimerState where
  | run
  | pause
  | stop
deriving Repr, DecidableEq

/-- Mutex-protected shared coordination data (namespace threadData in
src/MainCommon.cpp): the commanded timer state, the three notification flags
read by the Supervisor main loop, and the notification flag read by the timer
thread. -/
structure ThreadData where
  timerState : TimerState
  notifyMainStop : Bool
  notifyMainServer : Bool
  notifyMainUpdater : Bool
  notifyTimerThread : Bool
deriving Repr, DecidableEq

/-- Timer-thread local wake targets (wakeTime and updateTime in
TimerFunction), in abstract minute units on a monotone clock. -/
structure TimerLocal where
  wakeTime : Nat
  updateTime : Nat
deriving Repr, DecidableEq

/-- Result of one iteration of the TimerFunction while-loop: either the loop
continues with updated local targets and shared data, or it breaks out
(commanded STOP). -/
inductive TimerStep where
  | continued (l : TimerLocal) (s : ThreadData)
  | stopped (s : ThreadData)
deriving Repr, DecidableEq

/-- Shared tail of a TimerFunction iteration (src/MainCommon.cpp lines
111-127): notifyMain is false exactly when the commanded state is PAUSE; the
wake target always advances by the sleep duration and the update target
advances by the update interval when it had elapsed; when notifying, the
health-check flag is assigned true and the update-check flag is assigned
whether the update interval elapsed on this tick. -/
def timerIterTail (sleepMin updMin : Nat) (l : TimerLocal) (s : ThreadData)
    (now : Nat) : TimerStep :=
  let notifyMain := s.timerState ≠ TimerState.pause
  let updateTimeElapsed : Bool := decide (updMin ≠ 0 ∧ l.updateTime ≤ now)
  let l1 : TimerLocal :=
    { wakeTime := l.wakeTime + sleepMin
    , updateTime := if updateTimeElapsed then l.updateTime + updMin else l.updateTime }
  if ¬ notifyMain then .continued l1 s
  else .continued l1
    { s with notifyMainServer := true, notifyMainUpdater := updateTimeElapsed }

/-- One iteration of the TimerFunction loop body (src/MainCommon.cpp lines
74-128), as a function of the instant now at which the condition-variable wait
returned.  The wait reports notified exactly when notifyTimerThread_ is set;
on a notification the flag is consumed, a RUN command re-arms both wake
targets from now and loops, a STOP command breaks out, and a PAUSE command
falls through to the shared tail (which then skips notifying main). -/
def timerIter (sleepMin updMin : Nat) (l : TimerLocal) (s : ThreadData)
    (now : Nat) : TimerStep :=
  if s.notifyTimerThread then
    let s1 := { s with notifyTimerThread := false }
    match s1.timerState with
    | .run => .continued ⟨now + sleepMin, now + updMin⟩ s1
    | .stop => .stopped s1
    | .pause => timerIterTail sleepMin updMin l s1 now
  else timerIterTail sleepMin updMin l s now

/-- Iterated runs of the timer loop body over a list of successive wake
instants, with no intervening Supervisor activity. -/
def timerIters (sleepMin updMin : Nat) :
    List Nat → TimerLocal → ThreadData → TimerStep
  | [], l, s => .continued l s
  | n :: ns, l, s =>
    match timerIter sleepMin updMin l s n with
    | .continued l1 s1 => timerIters sleepMin updMin ns l1 s1
    | .stopped s1 => .stopped s1

end Sched

namespace Main

/-- Exit codes of the application (src/MainCommon.h). -/
def RLS_EXIT_SUCCESS : Nat := 0

/-- Exit code for an invalid argument (src/MainCommon.h). -/
def RLS_EXIT_ARG : Nat := 1

/-- Exit code for a failure while setting up signal handling
(src/MainCommon.h). -/
def RLS_EXIT_HANDLER : Nat := 2

/-- Exit code for a server start failure (src/MainCommon.h). -/
def RLS_EXIT_START : Nat := 3

/-- Exit code for a failed server start after installing updates
(src/MainCommon.h). -/
def RLS_EXIT_UPDATE : Nat := 4

/-- Exit code for a failed or unconfigured restart after an unexpected server
stop (src/MainCommon.h). -/
def RLS_EXIT_RESTART : Nat := 5

/-- Exit code for an unhandled exception (src/MainCommon.h). -/
def RLS_EXIT_EXCEPTION : Nat := 6

/-- Exit code for a timer thread creation failure (src/MainCommon.h). -/
def RLS_EXIT_THREAD : Nat := 7

/-- Notification flags observed by the Supervisor main loop after its
condition-variable wait returns (threadData notifyMainStop_,
notifyMainServer_, notifyMainUpdater_). -/
structure Flags where
  stop : Bool
  server : Bool
  updater : Bool
deriving Repr, DecidableEq

/-- Environment oracle for one wake of the main event loop in Start
(src/MainCommon.cpp lines 364-526): results of the interval and relaunch
update checks, process-alive state, configuration, start-attempt outcomes,
the shutdown reason read from the reason file (or its default), and the
configured mod framework name. -/
structure Env where
  updateServerOnInterval : Bool
  updateFrameworkOnInterval : Bool
  startAfterUpdateOk : Bool
  serverRunning : Bool
  autoRestart : Bool
  updateServerOnRelaunch : Bool
  updateFrameworkOnRelaunch : Bool
  relaunchOk : Bool
  stopReason : String
  frameworkName : String
deriving Repr, DecidableEq

/-- Externally visible actions the loop body performs, in program order. -/
inductive Action where
  | setTimer (ts : Sched.TimerState)
  | stopServer (reason : String)
  | installServer
  | installFramework
  | startServer
  | queryInfo
deriving Repr, DecidableEq

/-- Signal classes a single wake can handle, used to state the priority
order. -/
inductive Sig where
  | stopReq
  | updateTick
  | healthTick
deriving Repr, DecidableEq

/-- Result of one wake of the Supervisor loop body: the flag state left
behind, the action trace, which signals were handled in which order, and the
exit code when the body breaks out of the loop. -/
structure BodyResult where
  flags : Flags
  trace : List Action
  handled : List Sig
  exitCode : Option Nat
deriving Repr, DecidableEq

/-- Reason string derived for an interval update (src/MainCommon.cpp lines
416-429): "Facepunch" for a server update, the configured framework name for
a framework update, joined with " + " when both apply. -/
def updateReason (env : Env) : String :=
  (if env.updateServerOnInterval then "Facepunch" else "")
    ++ (if env.updateFrameworkOnInterval then
          (if env.updateServerOnInterval then " + " else "") ++ env.frameworkName
        else "")

/-- Update-notification branch of the main loop (src/MainCommon.cpp lines
397-458): consume the flag, check for updates, and when any are needed pause
the timers, stop the server naming the artifacts, install, and restart;
failure to restart breaks out with RLS_EXIT_UPDATE, success resumes the
timers and falls through. -/
def updateBranch (env : Env) : List Action × Option Nat :=
  if env.updateServerOnInterval ∨ env.updateFrameworkOnInterval then
    ( [Action.setTimer .pause
      , Action.stopServer ("Installing update(s): " ++ updateReason env)]
        ++ (if env.updateServerOnInterval then [Action.installServer] else [])
        ++ (if env.updateFrameworkOnInterval then [Action.installFramework] else [])
        ++ [Action.startServer]
        ++ (if env.startAfterUpdateOk then [Action.setTimer .run] else [])
    , if env.startAfterUpdateOk then none else some RLS_EXIT_UPDATE)
  else ([], none)

/-- Health-notification branch of the main loop (src/MainCommon.cpp lines
460-524): when the process is running, poll server info over RCON; when it is
not and auto-restart is configured, pause the timers, run the relaunch update
checks and installs, and restart (breaking out with RLS_EXIT_RESTART on
failure); without auto-restart, command the timer to stop and break out with
RLS_EXIT_RESTART. -/
def healthBranch (env : Env) : List Action × Option Nat :=
  if env.serverRunning then ([Action.queryInfo], none)
  else if env.autoRestart then
    ( [Action.setTimer .pause]
        ++ (if env.updateServerOnRelaunch then [Action.installServer] else [])
        ++ (if env.updateFrameworkOnRelaunch then [Action.installFramework] else [])
        ++ [Action.startServer]
        ++ (if env.relaunchOk then [Action.setTimer .run] else [])
    , if env.relaunchOk then none else some RLS_EXIT_RESTART)
  else ([Action.setTimer .stop], some RLS_EXIT_RESTART)

/-- One wake of the Supervisor main event loop (src/MainCommon.cpp lines
364-526).  A pending stop request is handled first and alone: the timer is
commanded to stop, the server is stopped with the operator-supplied-or-default
reason, and the loop exits with RLS_EXIT_SUCCESS.  Otherwise the update branch
runs when its flag is set (consuming it), and unless it broke out, the health
branch runs when its flag is set (consuming it). -/
def mainLoopBody (env : Env) (f : Flags) : BodyResult :=
  if f.stop then
    { flags := f
    , trace := [Action.setTimer .stop, Action.stopServer env.stopReason]
    , handled := [Sig.stopReq]
    , exitCode := some RLS_EXIT_SUCCESS }
  else
    let u : Flags × List Action × Option Nat × List Sig :=
      if f.updater then
        let r := updateBranch env
        ({ f with updater := false }, r.1, r.2, [Sig.updateTick])
      else (f, [], none, [])
    match u.2.2.1 with
    | some c => { flags := u.1, trace := u.2.1, handled := u.2.2.2, exitCode := some c }
    | none =>
      let h : Flags × List Action × Option Nat × List Sig :=
        if u.1.server then
          let r := healthBranch env
          ({ u.1 with server := false }, r.1, r.2, [Sig.healthTick])
        else (u.1, [], none, [])
      { flags := h.1
      , trace := u.2.1 ++ h.2.1
      , handled := u.2.2.2 ++ h.2.2.2
      , exitCode := h.2.2.1 }

end Main

namespace Server

/-- Escalation stages of Server::Stop (src/Server.cpp lines 422-472): the
player-aware shutdown delay, the polite RCON quit with its bounded one-second
polling, and the forced process termination. -/
inductive Stage where
  | delay
  | politeQuit
  | forceKill
deriving Repr, DecidableEq

/-- Environment observations made during Server::Stop: whether the RCON
client exists and is connected, the fresh IsRunning() observations made after
the delay stage (the guard inside SendRconCommand) and after the quit polling
loop (the final kill check), and the child process exit code. -/
structure StopEnv where
  rconConnected : Bool
  runningAfterDelay : Bool
  runningAfterQuitWait : Bool
  exitCode : Int
deriving Repr, DecidableEq

/-- Observable result of Server::Stop: whether the supervised process is
still alive on return, whether the process handle is still held, the
escalation stages performed in order, and whether the non-zero exit code
warning was emitted. -/
structure StopResult where
  processAlive : Bool
  handleValid : Bool
  stages : List Stage
  warnedNonZeroExit : Bool
deriving Repr, DecidableEq

/-- Server::Stop (src/Server.cpp lines 422-472).  Not running at entry is a
no-op that leaves the handle alone.  Otherwise, when RCON is connected, the
shutdown delay runs (a real delay only when a non-zero grace is configured),
then SendRconCommand("quit") is issued, itself guarded by a fresh IsRunning()
check, and the one-second poll loop runs while the process lives; when RCON
is absent both stages are skipped and the process is still alive at the kill
check.  Any process still alive at the kill check is forcibly terminated
(modelled as effective), a non-zero exit code is only reported, and the
process handle is reset regardless of outcome. -/
def serverStop (running0 handle0 : Bool) (stopDelaySeconds : Nat)
    (env : StopEnv) : StopResult :=
  if ¬ running0 then ⟨running0, handle0, [], false⟩
  else
    let delayStages : List Stage :=
      if env.rconConnected ∧ stopDelaySeconds ≠ 0 then [.delay] else []
    let quitStages : List Stage :=
      if env.rconConnected ∧ env.runningAfterDelay then [.politeQuit] else []
    let aliveAtKillCheck : Bool :=
      if env.rconConnected then env.runningAfterQuitWait else running0
    let killStages : List Stage := if aliveAtKillCheck then [.forceKill] else []
    let aliveAfterKill : Bool := if aliveAtKillCheck then false else aliveAtKillCheck
    { processAlive := aliveAfterKill
    , handleValid := false
    , stages := delayStages ++ quitStages ++ killStages
    , warnedNonZeroExit := env.exitCode != 0 }

end Server

namespace Update

/-- Retry loop shared by the UpdateServer and UpdateFramework wrappers in
src/MainCommon.cpp (lines 165-225): run one install attempt, then re-check;
repeat while the post-install check still reports a pending update.  check k
is the result of the check performed after install attempt k (attempts are
numbered from 0).  The loop is given fuel; it returns the number of install
attempts performed when it exits, and none when the fuel runs out before any
check reports the artifact up to date. -/
def retryLoopFrom (check : Nat → Bool) : Nat → Nat → Option Nat
  | 0, _ => none
  | fuel + 1, k => if check k then retryLoopFrom check fuel (k + 1) else some (k + 1)

/-- Install loop of UpdateServer (src/MainCommon.cpp lines 196-225): the loop
enters with update pending, installs, and re-evaluates via
Updater::CheckServer. -/
def updateServerLoop (check : Nat → Bool) (fuel : Nat) : Option Nat :=
  retryLoopFrom check fuel 0

/-- Install loop of UpdateFramework (src/MainCommon.cpp lines 165-194): the
loop enters with update pending, installs, and re-evaluates via
Updater::CheckFramework. -/
def updateFrameworkLoop (check : Nat → Bool) (fuel : Nat) : Option Nat :=
  retryLoopFrom check fuel 0

end Update

namespace Delay

/-- Backoff interval selection of Server::StopDelay (src/Server.cpp lines
503-508), in seconds, from the measured remaining time. -/
def markInterval (r : Int) : Int :=
  if 300 < r then 300 else if 60 < r then 60 else if 10 < r then 10 else 1

/-- Per-iteration environment of the StopDelay loop: process-alive state and
the validity flag and player count of the RCON health query, indexed by the
iteration number. -/
structure Oracle where
  running : Nat → Bool
  valid : Nat → Bool
  players : Nat → Nat

/-- Way the StopDelay loop ended: the while-condition found the grace
boundary passed, the while-condition found the process gone, or the health
query broke out early (invalid reply or zero players). -/
inductive ExitKind where
  | boundary
  | notRunning
  | earlyBreak
deriving Repr, DecidableEq

/-- Observable result of a StopDelay run: the clock value on exit, how the
loop exited, and for every warning broadcast (in order) the instant it was
sent and the measured remaining whole seconds it announced. -/
structure DelayRun where
  finalNow : Int
  exitKind : ExitKind
  marks : List (Int × Int)
deriving Repr, DecidableEq

/-- Fueled model of the Server::StopDelay while-loop (src/Server.cpp lines
474-543).  Times are integer milliseconds on a monotone clock; shutdown is
the latest shutdown instant (entry time plus the configured grace), and each
iteration spends eps milliseconds in the RCON health query before the
remaining time is measured.  The remaining seconds use the C++
duration_cast truncation (Int.tdiv), the broadcast is recorded, and the loop
sleeps until the next multiple-of-interval mark before the shutdown instant
(a sleep_until into the past is a no-op). -/
def stopDelayLoop (o : Oracle) (shutdown eps : Int) :
    Nat → Nat → Int → List (Int × Int) → Option DelayRun
  | 0, _, _, _ => none
  | fuel + 1, i, now, acc =>
    if ¬ o.running i then some ⟨now, .notRunning, acc⟩
    else if ¬ now ≤ shutdown then some ⟨now, .boundary, acc⟩
    else
      let m := now + eps
      if ¬ o.valid i ∨ o.players i = 0 then some ⟨m, .earlyBreak, acc⟩
      else
        let r := Int.tdiv (shutdown - m) 1000
        let interval := markInterval r
        let marksRemaining := Int.tdiv r interval
        let nextMark := shutdown - 1000 * (interval * marksRemaining)
        let now1 := max m nextMark
        stopDelayLoop o shutdown eps fuel (i + 1) now1 (acc ++ [(m, r)])

end Delay

/-! Theorems about the embedded operations, one per claim, with witnesses for
the theorems that carry hypotheses. -/

/-- C8: SendCommand with a zero timeout never registers a pending identifier,
uses the reserved wire identifier zero, and returns immediately with the
empty string, whatever the connection state and the bookkeeping state. -/
theorem sendCommand_zero_timeout (connected : Bool) (freshId : Int)
    (st : Rcon.State) :
    Rcon.sendCommandStart connected freshId 0 st = ⟨st, 0, some ""⟩ := by
  cases connected <;> simp [Rcon.sendCommandStart]

/-- C2: a pending identifier is created by a send with a non-zero timeout and
invalidated exactly once: the first matching non-chat response stores its body
and removes the pending entry, so a later or duplicate response with the same
identifier finds no pending entry and is dropped unknown with the state
untouched; the timeout path removes the entry as well; and the completing
waiter reads only the response stored under its own identifier. -/
theorem pending_identifier_lifecycle (listeners : Rcon.Listeners)
    (st : Rcon.State) (freshId : Int) (t : Nat) (ty : Option String)
    (body : Option String) (raw : String)
    (hnd : st.requests.Nodup) (hid : freshId ≠ 0) (ht : t ≠ 0)
    (hty : ty ≠ some "Chat") :
    (Rcon.sendCommandStart true freshId t st).state.requests
        = st.requests.insert freshId ∧
    (freshId ∈ st.requests →
      (Rcon.websocketMessageHandler listeners st ⟨some freshId, ty, body, raw⟩).2
          = Rcon.Outcome.delivered freshId ∧
      freshId ∉ (Rcon.websocketMessageHandler listeners st
          ⟨some freshId, ty, body, raw⟩).1.requests ∧
      List.lookup freshId (Rcon.websocketMessageHandler listeners st
          ⟨some freshId, ty, body, raw⟩).1.responses = some (body.getD "")) ∧
    (freshId ∉ st.requests →
      Rcon.websocketMessageHandler listeners st ⟨some freshId, ty, body, raw⟩
        = (st, Rcon.Outcome.droppedUnknown)) ∧
    freshId ∉ (Rcon.sendCommandFinish freshId st).1.requests ∧
    (Rcon.sendCommandFinish freshId st).2
        = (List.lookup freshId st.responses).getD "" := by
  refine ⟨?_, ?_, ?_, ?_, ?_⟩
  · simp [Rcon.sendCommandStart, ht, hid]
  · intro hmem
    simp only [Rcon.websocketMessageHandler]
    rw [if_pos ⟨hid, hty⟩, if_pos hmem]
    refine ⟨rfl, ?_, ?_⟩
    · exact hnd.not_mem_erase
    · simp [List.lookup]
  · intro hmem
    simp only [Rcon.websocketMessageHandler]
    rw [if_pos ⟨hid, hty⟩, if_neg hmem]
  · simp only [Rcon.sendCommandFinish]
    cases h : List.lookup freshId
        ({ st with requests := st.requests.erase freshId } : Rcon.State).responses with
    | none => simpa using hnd.not_mem_erase
    | some r => simpa [h] using hnd.not_mem_erase
  · simp only [Rcon.sendCommandFinish]
    cases h : List.lookup freshId
        ({ st with requests := st.requests.erase freshId } : Rcon.State).responses with
    | none => simp_all
    | some r => simp_all

/-- Witness for the C2 theorem at a concrete state: identifier 5 is pending,
a response "ok" has been stored for it, and the timeout path has invalidated
it. -/
theorem pending_identifier_lifecycle_witness :
    5 ∉ (Rcon.sendCommandFinish 5 ⟨[5], [(5, "ok")]⟩).1.requests ∧
    (Rcon.sendCommandFinish 5 ⟨[5], [(5, "ok")]⟩).2 = "ok" := by
  have h := pending_identifier_lifecycle [1] ⟨[5], [(5, "ok")]⟩ 5 1000 none
    (some "ok") "raw" (by decide) (by decide) (by decide) (by decide)
  exact ⟨h.2.2.2.1, by simpa [List.lookup] using h.2.2.2.2⟩

/-- C7 as stated is refuted: an inbound message that carries Type "Chat" but
no Identifier field is dropped with a warning (src/Rcon.cpp lines 321-325)
instead of being routed to the broadcast listeners. -/
theorem broadcast_routing_cex :
    (Rcon.websocketMessageHandler [7] ⟨[], []⟩
        ⟨none, some "Chat", none, "hi"⟩).2 = Rcon.Outcome.droppedNoId ∧
    Rcon.Outcome.droppedNoId
        ≠ Rcon.Outcome.broadcast (List.map (fun h => (h, "hi")) [7]) := by
  exact ⟨rfl, by decide⟩

/-- C7 amended: an inbound message is routed to all registered broadcast
listeners, in registration order, exactly when it carries an Identifier field
whose value is zero or it carries Type "Chat" (the chat sentinel -1
included); a message without an Identifier field is dropped; a non-chat
message with a non-zero identifier is never broadcast and is matched against
the pending-request set instead: delivered when pending, dropped as unknown
otherwise. -/
theorem broadcast_routing (listeners : Rcon.Listeners) (st : Rcon.State)
    (m : Rcon.InMsg) :
    ((Rcon.websocketMessageHandler listeners st m).2
        = Rcon.Outcome.broadcast (listeners.map (fun h => (h, m.raw)))
      ↔ ∃ rid, m.identifier = some rid ∧ (rid = 0 ∨ m.msgType = some "Chat")) ∧
    (∀ rid, m.identifier = some rid → rid ≠ 0 → m.msgType ≠ some "Chat" →
      (rid ∈ st.requests →
        (Rcon.websocketMessageHandler listeners st m).2
          = Rcon.Outcome.delivered rid) ∧
      (rid ∉ st.requests →
        Rcon.websocketMessageHandler listeners st m
          = (st, Rcon.Outcome.droppedUnknown))) := by
  constructor
  · cases hi : m.identifier with
    | none => simp [Rcon.websocketMessageHandler, hi]
    | some rid =>
      by_cases hc : rid ≠ 0 ∧ ¬ m.msgType = some "Chat"
      · by_cases hmem : rid ∈ st.requests <;>
          simp_all [Rcon.websocketMessageHandler, hi, hc]
      · have hdisj : rid = 0 ∨ m.msgType = some "Chat" := by tauto
        simp only [Rcon.websocketMessageHandler, hi]
        rw [if_neg hc]
        simp only [true_iff, iff_true]
        exact ⟨rid, rfl, hdisj⟩
  · intro rid hi hz hc
    constructor
    · intro hmem
      simp only [Rcon.websocketMessageHandler, hi]
      rw [if_pos ⟨hz, hc⟩, if_pos hmem]
    · intro hmem
      simp only [Rcon.websocketMessageHandler, hi]
      rw [if_pos ⟨hz, hc⟩, if_neg hmem]

/-- Witness for the C7 amended theorem: a chat message with the sentinel
identifier -1 reaches both registered listeners in order, and a non-chat
response with unknown identifier 9 is dropped with the state untouched. -/
theorem broadcast_routing_witness :
    (Rcon.websocketMessageHandler [3, 7] ⟨[], []⟩
        ⟨some (-1), some "Chat", some "hi", "raw"⟩).2
      = Rcon.Outcome.broadcast [(3, "raw"), (7, "raw")] ∧
    Rcon.websocketMessageHandler [3, 7] ⟨[], []⟩ ⟨some 9, none, none, "x"⟩
      = (⟨[], []⟩, Rcon.Outcome.droppedUnknown) := by
  constructor
  · exact ((broadcast_routing [3, 7] ⟨[], []⟩
      ⟨some (-1), some "Chat", some "hi", "raw"⟩).1).mpr ⟨-1, rfl, Or.inr rfl⟩
  · exact ((broadcast_routing [3, 7] ⟨[], []⟩
      ⟨some 9, none, none, "x"⟩).2 9 rfl (by decide) (by decide)).2 (by decide)

/-- Pause preservation for one timer iteration: with the phase commanded
Pause the loop continues, stays in Pause, and leaves the Supervisor
notification flags exactly as they were. -/
theorem Sched.timerIter_pause (sleepMin updMin : Nat) (l : Sched.TimerLocal)
    (s : Sched.ThreadData) (now : Nat) (hp : s.timerState = .pause) :
    ∃ l1 s1, Sched.timerIter sleepMin updMin l s now
        = Sched.TimerStep.continued l1 s1 ∧
      s1.timerState = .pause ∧ s1.notifyMainServer = s.notifyMainServer ∧
      s1.notifyMainUpdater = s.notifyMainUpdater := by
  cases hnt : s.notifyTimerThread with
  | false =>
    simp [Sched.timerIter, Sched.timerIterTail, hnt, hp]
    exact ⟨_, _, ⟨rfl, rfl⟩, hp, rfl, rfl⟩
  | true =>
    simp [Sched.timerIter, Sched.timerIterTail, hnt, hp]
    exact ⟨_, _, ⟨rfl, rfl⟩, rfl, rfl, rfl⟩

/-- Health-flag coalescing for one timer iteration: a set notifyMainServer_
flag survives any single iteration of the timer loop, whatever its outcome. -/
theorem Sched.timerIter_server_mono (sleepMin updMin : Nat)
    (l : Sched.TimerLocal) (s : Sched.ThreadData) (now : Nat)
    (hs : s.notifyMainServer = true) :
    (match Sched.timerIter sleepMin updMin l s now with
     | .continued _ s1 => s1.notifyMainServer = true
     | .stopped s1 => s1.notifyMainServer = true) := by
  cases hnt : s.notifyTimerThread with
  | true =>
    cases hts : s.timerState with
    | run => simp [Sched.timerIter, hnt, hts, hs]
    | stop => simp [Sched.timerIter, hnt, hts, hs]
    | pause => simp [Sched.timerIter, Sched.timerIterTail, hnt, hts, hs]
  | false =>
    by_cases hpz : s.timerState = Sched.TimerState.pause <;>
      simp [Sched.timerIter, Sched.timerIterTail, hnt, hpz, hs]

/-- C1 as stated is refuted: TimerFunction assigns notifyMainUpdater_ =
updateTimeElapsed on every delivered tick (src/MainCommon.cpp line 123)
instead of accumulating it, so a health-check tick whose update interval has
not elapsed overwrites a pending, unconsumed update-check notification: here
the flag is true before the tick and false after it. -/
theorem signal_coalescing_cex :
    (⟨.run, false, false, true, false⟩ : Sched.ThreadData).notifyMainUpdater
        = true ∧
    Sched.timerIter 1 60 ⟨5, 60⟩ ⟨.run, false, false, true, false⟩ 5
      = Sched.TimerStep.continued ⟨6, 60⟩ ⟨.run, false, true, false, false⟩ := by
  exact ⟨rfl, by decide⟩

/-- C1 amended: the health-check flag does coalesce — once set it survives
every further timer-loop iteration until consumed — but the update-check flag
is overwritten on each delivered tick with that tick's own interval status,
so a pending update-check notification is cleared by a later tick whose
update interval has not elapsed. -/
theorem signal_coalescing (sleepMin updMin : Nat) (l : Sched.TimerLocal)
    (s : Sched.ThreadData) (now : Nat) :
    (s.notifyMainServer = true →
      (match Sched.timerIter sleepMin updMin l s now with
       | .continued _ s1 => s1.notifyMainServer = true
       | .stopped s1 => s1.notifyMainServer = true)) ∧
    (s.notifyTimerThread = false → s.timerState = .run →
      ¬ (updMin ≠ 0 ∧ l.updateTime ≤ now) → s.notifyMainUpdater = true →
      ∃ l1 s1, Sched.timerIter sleepMin updMin l s now
          = Sched.TimerStep.continued l1 s1 ∧
        s1.notifyMainUpdater = false ∧ s1.notifyMainServer = true) := by
  constructor
  · exact fun hs => Sched.timerIter_server_mono sleepMin updMin l s now hs
  · intro hnt hts helapsed hpend
    simp [Sched.timerIter, Sched.timerIterTail, hnt, hts]
    refine ⟨_, _, ⟨rfl, rfl⟩, ?_, rfl⟩
    simpa using helapsed

/-- Witness for the C1 amended theorem: a pending update-check flag together
with a set health-check flag, hit by a tick at an instant before the update
target; the amended facts hold there. -/
theorem signal_coalescing_witness :
    (∃ l1 s1, Sched.timerIter 1 60 ⟨5, 60⟩
        ⟨.run, false, true, true, false⟩ 5 = Sched.TimerStep.continued l1 s1 ∧
      s1.notifyMainUpdater = false ∧ s1.notifyMainServer = true) := by
  exact (signal_coalescing 1 60 ⟨5, 60⟩ ⟨.run, false, true, true, false⟩ 5).2
    rfl rfl (by simp) rfl

/-- C4: while the commanded phase is Pause the timer loop never raises a
health-check or update-check notification over any number of iterations (the
loop also never breaks on its own), and a Pause-to-Run notification re-arms
both wake targets from the current instant, so no stale tick fires
immediately on resume. -/
theorem pause_safety_and_resume (sleepMin updMin : Nat)
    (l : Sched.TimerLocal) (s : Sched.ThreadData) (nows : List Nat) (now : Nat)
    (hp : s.timerState = .pause)
    (hserver : s.notifyMainServer = false)
    (hupd : s.notifyMainUpdater = false) :
    (∃ l1 s1, Sched.timerIters sleepMin updMin nows l s
        = Sched.TimerStep.continued l1 s1 ∧
      s1.timerState = .pause ∧ s1.notifyMainServer = false ∧
      s1.notifyMainUpdater = false) ∧
    (∀ s2 : Sched.ThreadData, s2.notifyTimerThread = true →
      s2.timerState = .run →
      Sched.timerIter sleepMin updMin l s2 now
        = Sched.TimerStep.continued ⟨now + sleepMin, now + updMin⟩
            { s2 with notifyTimerThread := false }) := by
  constructor
  · induction nows generalizing l s with
    | nil => exact ⟨l, s, rfl, hp, hserver, hupd⟩
    | cons n ns ih =>
      obtain ⟨l1, s1, hstep, hp1, hsv1, hup1⟩ :=
        Sched.timerIter_pause sleepMin updMin l s n hp
      have := ih l1 s1 hp1 (hsv1.trans hserver) (hup1.trans hupd)
      simpa [Sched.timerIters, hstep] using this
  · intro s2 hnt hts
    simp [Sched.timerIter, hnt, hts]

/-- Witness for the C4 theorem: three paused wake instants leave both flags
clear, and a resume notification at instant 9 re-arms the targets to 9 plus
the respective cadences. -/
theorem pause_safety_and_resume_witness :
    (∃ l1 s1, Sched.timerIters 1 60 [7, 8, 9] ⟨5, 60⟩
        ⟨.pause, false, false, false, false⟩
        = Sched.TimerStep.continued l1 s1 ∧
      s1.timerState = .pause ∧ s1.notifyMainServer = false ∧
      s1.notifyMainUpdater = false) ∧
    Sched.timerIter 1 60 ⟨5, 60⟩ ⟨.run, false, false, false, true⟩ 9
      = Sched.TimerStep.continued ⟨10, 69⟩ ⟨.run, false, false, false, false⟩ := by
  have h := pause_safety_and_resume 1 60 ⟨5, 60⟩
    ⟨.pause, false, false, false, false⟩ [7, 8, 9] 9 rfl rfl rfl
  exact ⟨h.1, h.2 ⟨.run, false, false, false, true⟩ rfl rfl⟩

/-- Exit codes reachable from the update branch: it either falls through or
breaks out with RLS_EXIT_UPDATE. -/
theorem Main.updateBranch_code (env : Main.Env) :
    (Main.updateBranch env).2 = none
      ∨ (Main.updateBranch env).2 = some Main.RLS_EXIT_UPDATE := by
  unfold Main.updateBranch
  by_cases h : env.updateServerOnInterval = true ∨ env.updateFrameworkOnInterval = true <;>
    by_cases hok : env.startAfterUpdateOk = true <;>
    simp_all

/-- Exit codes reachable from the health branch: it either falls through or
breaks out with RLS_EXIT_RESTART. -/
theorem Main.healthBranch_code (env : Main.Env) :
    (Main.healthBranch env).2 = none
      ∨ (Main.healthBranch env).2 = some Main.RLS_EXIT_RESTART := by
  unfold Main.healthBranch
  by_cases hrun : env.serverRunning = true <;>
    by_cases har : env.autoRestart = true <;>
    by_cases hrok : env.relaunchOk = true <;>
    simp_all

/-- C5: within a single wake of the Supervisor a pending stop request is
handled first and alone, before an update-check signal, which is handled
before a health-check signal; the stop branch commands the timer to stop,
stops the server with the operator-supplied-or-default reason, and exits with
the successful code; that branch is the only loop-exit path producing the
successful code, every other exit carries a distinct failure code. -/
theorem wake_priority_and_exit_codes (env : Main.Env) (f : Main.Flags) :
    (f.stop = true →
      (Main.mainLoopBody env f).handled = [Main.Sig.stopReq] ∧
      (Main.mainLoopBody env f).trace
        = [Main.Action.setTimer .stop, Main.Action.stopServer env.stopReason] ∧
      (Main.mainLoopBody env f).exitCode = some Main.RLS_EXIT_SUCCESS) ∧
    List.Sublist (Main.mainLoopBody env f).handled
      [Main.Sig.stopReq, Main.Sig.updateTick, Main.Sig.healthTick] ∧
    ((Main.mainLoopBody env f).exitCode = some Main.RLS_EXIT_SUCCESS
      ↔ f.stop = true) ∧
    (∀ c, (Main.mainLoopBody env f).exitCode = some c → f.stop = false →
      (c = Main.RLS_EXIT_UPDATE ∨ c = Main.RLS_EXIT_RESTART)
        ∧ c ≠ Main.RLS_EXIT_SUCCESS) := by
  obtain ⟨fs, fsv, fu⟩ := f
  rcases Main.updateBranch_code env with hub | hub <;>
    rcases Main.healthBranch_code env with hhb | hhb <;>
    cases fs <;> cases fsv <;> cases fu <;>
    simp_all [Main.mainLoopBody,
      Main.RLS_EXIT_SUCCESS, Main.RLS_EXIT_UPDATE, Main.RLS_EXIT_RESTART]

/-- Witness for the C5 theorem at a concrete wake: the stop flag set together
with both tick flags still yields the stop branch alone with the successful
exit code. -/
theorem wake_priority_and_exit_codes_witness :
    (Main.mainLoopBody
        ⟨true, true, true, false, true, false, false, true, "operator reason", "Oxide"⟩
        ⟨true, true, true⟩).handled = [Main.Sig.stopReq] ∧
    (Main.mainLoopBody
        ⟨true, true, true, false, true, false, false, true, "operator reason", "Oxide"⟩
        ⟨true, true, true⟩).exitCode = some Main.RLS_EXIT_SUCCESS := by
  have h := wake_priority_and_exit_codes
    ⟨true, true, true, false, true, false, false, true, "operator reason", "Oxide"⟩
    ⟨true, true, true⟩
  exact ⟨(h.1 rfl).1, (h.1 rfl).2.2⟩

/-- C3: for a Stop call made while the process is running, the process is not
running on return and the handle is invalidated regardless of outcome; the
escalation stages occur only in order (delay, then polite quit, then forced
kill); the polite quit is issued only when the process is still running after
the delay stage and the forced kill only when it is still running after the
quit wait; the process exit code affects only the reported warning, never the
resulting state or stages. -/
theorem stop_monotonic (h0 : Bool) (d : Nat) (env : Server.StopEnv) :
    (Server.serverStop true h0 d env).processAlive = false ∧
    (Server.serverStop true h0 d env).handleValid = false ∧
    List.Sublist (Server.serverStop true h0 d env).stages
      [Server.Stage.delay, Server.Stage.politeQuit, Server.Stage.forceKill] ∧
    (Server.Stage.politeQuit ∈ (Server.serverStop true h0 d env).stages
      ↔ env.rconConnected = true ∧ env.runningAfterDelay = true) ∧
    (Server.Stage.forceKill ∈ (Server.serverStop true h0 d env).stages
      ↔ (if env.rconConnected then env.runningAfterQuitWait else true) = true) ∧
    (∀ e : Int,
      (Server.serverStop true h0 d { env with exitCode := e }).processAlive
        = (Server.serverStop true h0 d env).processAlive ∧
      (Server.serverStop true h0 d { env with exitCode := e }).handleValid
        = (Server.serverStop true h0 d env).handleValid ∧
      (Server.serverStop true h0 d { env with exitCode := e }).stages
        = (Server.serverStop true h0 d env).stages) := by
  obtain ⟨rc, rad, raq, e0⟩ := env
  cases rc <;> cases rad <;> cases raq <;>
    by_cases hd : d = 0 <;>
    simp_all [Server.serverStop]

/-- Witness for the C3 theorem on a concrete escalation: RCON connected, the
process survives the delay and the quit wait, grace 30 seconds, exit code 1;
all three stages fire in order and the handle is gone. -/
theorem stop_monotonic_witness :
    (Server.serverStop true true 30 ⟨true, true, true, 1⟩).processAlive = false ∧
    (Server.serverStop true true 30 ⟨true, true, true, 1⟩).handleValid = false ∧
    List.Sublist (Server.serverStop true true 30 ⟨true, true, true, 1⟩).stages
      [Server.Stage.delay, Server.Stage.politeQuit, Server.Stage.forceKill] := by
  have h := stop_monotonic true 30 ⟨true, true, true, 1⟩
  exact ⟨h.1, h.2.1, h.2.2.1⟩

/-- C10: when the process is running but RCON is absent or not connected,
Stop skips the shutdown-delay and polite-quit stages entirely and goes
straight to forced termination, then invalidates the handle; no grace period
is observed even when one is configured. -/
theorem stop_without_rcon (h0 : Bool) (d : Nat) (env : Server.StopEnv)
    (hrcon : env.rconConnected = false) :
    Server.serverStop true h0 d env =
      { processAlive := false
      , handleValid := false
      , stages := [Server.Stage.forceKill]
      , warnedNonZeroExit := env.exitCode != 0 } := by
  obtain ⟨rc, rad, raq, e0⟩ := env
  cases rc with
  | false => simp [Server.serverStop]
  | true => cases hrcon

/-- Witness for the C10 theorem: RCON disconnected with a configured 30-second
grace still yields an immediate forced kill and handle reset. -/
theorem stop_without_rcon_witness :
    Server.serverStop true true 30 ⟨false, true, true, 0⟩ =
      { processAlive := false
      , handleValid := false
      , stages := [Server.Stage.forceKill]
      , warnedNonZeroExit := false } := by
  exact stop_without_rcon true 30 ⟨false, true, true, 0⟩ rfl

/-- Characterization of a retry-loop exit: reaching some k from start index
k0 means at least one further install happened, the check after the last
install reported up to date, and every check after an earlier install (from
k0 on) still reported an update pending. -/
theorem Update.retryLoopFrom_some (check : Nat → Bool) :
    ∀ (fuel k0 k : Nat), Update.retryLoopFrom check fuel k0 = some k →
      k0 + 1 ≤ k ∧ check (k - 1) = false ∧
      ∀ j, k0 ≤ j → j < k - 1 → check j = true := by
  intro fuel
  induction fuel with
  | zero => intro k0 k h; cases h
  | succ m ih =>
    intro k0 k h
    by_cases hc : check k0 = true
    · rw [Update.retryLoopFrom, if_pos hc] at h
      obtain ⟨h1, h2, h3⟩ := ih (k0 + 1) k h
      refine ⟨by omega, h2, ?_⟩
      intro j hj1 hj2
      rcases Nat.eq_or_lt_of_le hj1 with rfl | hlt
      · exact hc
      · exact h3 j (by omega) hj2
    · rw [Update.retryLoopFrom, if_neg (by simp_all)] at h
      obtain rfl : k0 + 1 = k := by simpa using h
      refine ⟨le_refl _, by simpa using hc, ?_⟩
      intro j hj1 hj2
      omega

/-- Termination of the retry loop: once a post-install check reports up to
date, enough fuel makes the loop return. -/
theorem Update.retryLoopFrom_terminates (check : Nat → Bool) (n : Nat)
    (hn : check n = false) :
    ∀ (fuel k0 : Nat), k0 ≤ n → n + 1 - k0 ≤ fuel →
      ∃ k, k ≤ n + 1 ∧ Update.retryLoopFrom check fuel k0 = some k := by
  intro fuel
  induction fuel with
  | zero => intro k0 h1 h2; omega
  | succ m ih =>
    intro k0 h1 h2
    by_cases hc : check k0 = true
    · have hk0n : k0 ≠ n := by
        rintro rfl
        rw [hn] at hc
        cases hc
      obtain ⟨k, hk1, hk2⟩ := ih (k0 + 1) (by omega) (by omega)
      exact ⟨k, hk1, by rw [Update.retryLoopFrom, if_pos hc]; exact hk2⟩
    · exact ⟨k0 + 1, by omega, by rw [Update.retryLoopFrom, if_neg (by simp_all)]⟩

/-- Divergence of the retry loop: with every check reporting an update
pending, no amount of fuel makes it return. -/
theorem Update.retryLoopFrom_diverges (check : Nat → Bool)
    (hall : ∀ j, check j = true) :
    ∀ (fuel k0 : Nat), Update.retryLoopFrom check fuel k0 = none := by
  intro fuel
  induction fuel with
  | zero => intro k0; rfl
  | succ m ih => intro k0; rw [Update.retryLoopFrom, if_pos (hall k0)]; exact ih (k0 + 1)

/-- C9: both install loops run install-then-recheck and return exactly when
the post-install check reports the artifact up to date: an exit after k
installs means the k-th check reported up to date and all earlier ones did
not; when some check eventually reports up to date the loop terminates given
enough fuel; and with an update source whose check always reports an update
needed, neither loop ever returns, for any amount of fuel. -/
theorem update_loops_termination (check : Nat → Bool) (fuel n k : Nat) :
    (Update.updateServerLoop check fuel = some k →
      1 ≤ k ∧ check (k - 1) = false ∧ ∀ j, j < k - 1 → check j = true) ∧
    (Update.updateFrameworkLoop check fuel = some k →
      1 ≤ k ∧ check (k - 1) = false ∧ ∀ j, j < k - 1 → check j = true) ∧
    (check n = false → n + 1 ≤ fuel →
      ∃ m, m ≤ n + 1 ∧ Update.updateServerLoop check fuel = some m) ∧
    (check n = false → n + 1 ≤ fuel →
      ∃ m, m ≤ n + 1 ∧ Update.updateFrameworkLoop check fuel = some m) ∧
    ((∀ j, check j = true) → Update.updateServerLoop check fuel = none) ∧
    ((∀ j, check j = true) → Update.updateFrameworkLoop check fuel = none) := by
  have hchar : ∀ h : Update.retryLoopFrom check fuel 0 = some k,
      1 ≤ k ∧ check (k - 1) = false ∧ ∀ j, j < k - 1 → check j = true := by
    intro h
    obtain ⟨h1, h2, h3⟩ := Update.retryLoopFrom_some check fuel 0 k h
    exact ⟨h1, h2, fun j hj => h3 j (Nat.zero_le j) hj⟩
  have hterm : check n = false → n + 1 ≤ fuel →
      ∃ m, m ≤ n + 1 ∧ Update.retryLoopFrom check fuel 0 = some m := by
    intro hn hf
    exact Update.retryLoopFrom_terminates check n hn fuel 0 (Nat.zero_le n) (by omega)
  have hdiv : (∀ j, check j = true) → Update.retryLoopFrom check fuel 0 = none :=
    fun hall => Update.retryLoopFrom_diverges check hall fuel 0
  exact ⟨hchar, hchar, hterm, hterm, hdiv, hdiv⟩

/-- Witness for the C9 theorem: a source that needs two installs terminates
after three attempts within fuel 5, and a source whose check always reports
an update pending never returns within fuel 7. -/
theorem update_loops_termination_witness :
    (∃ m, m ≤ 3 ∧ Update.updateServerLoop (fun j => decide (j < 2)) 5 = some m) ∧
    Update.updateServerLoop (fun _ => true) 7 = none := by
  have h := update_loops_termination (fun j => decide (j < 2)) 5 2 0
  have h2 := update_loops_termination (fun _ => true) 7 0 0
  exact ⟨h.2.2.1 (by decide) (by decide), h2.2.2.2.2.1 (fun j => rfl)⟩

/-- Truncated remainder of a nonpositive integer is nonpositive (C++ signed
integer division semantics). -/
theorem Int.tmod_nonpos_of_nonpos (a b : Int) (h : a ≤ 0) : a.tmod b ≤ 0 := by
  have h1 := Int.tdiv_add_tmod a b
  have h2 := Int.tdiv_add_tmod (-a) b
  have h3 : (-a).tdiv b = -(a.tdiv b) := Int.neg_tdiv a b
  have h4 : 0 ≤ (-a).tmod b := Int.tmod_nonneg b (by omega)
  rw [h3, mul_neg] at h2
  omega

/-- Positivity of the backoff interval selector. -/
theorem Delay.markInterval_pos (r : Int) : 0 < Delay.markInterval r := by
  unfold Delay.markInterval
  split <;> [norm_num; split <;> [norm_num; split <;> norm_num]]

/-- Bound on the sleep target of one StopDelay iteration: the next mark
instant lies less than one full active mark interval after the measurement
instant m (whatever the sign of the remaining time). -/
theorem Delay.nextMark_lt (shutdown m : Int) :
    shutdown
        - 1000 * (Delay.markInterval (Int.tdiv (shutdown - m) 1000)
            * Int.tdiv (Int.tdiv (shutdown - m) 1000)
                (Delay.markInterval (Int.tdiv (shutdown - m) 1000)))
        - m
      < 1000 * Delay.markInterval (Int.tdiv (shutdown - m) 1000) := by
  set d := shutdown - m with hd
  set r := Int.tdiv d 1000 with hr
  rcases le_or_lt 0 d with hd0 | hd0
  · have hr0 : 0 ≤ r := Int.tdiv_nonneg hd0 (by norm_num)
    have hdm := Int.tdiv_add_tmod d 1000
    have hm0a : 0 ≤ d.tmod 1000 := Int.tmod_nonneg _ hd0
    have hm0b : d.tmod 1000 < 1000 := by
      rw [Int.tmod_eq_emod hd0 (by norm_num)]
      exact Int.emod_lt_of_pos d (by norm_num)
    have key : ∀ I : Int, 0 < I → Delay.markInterval r = I →
        d - 1000 * (I * Int.tdiv r I) - m + m < 1000 * I := by
      intro I hI hIeq
      have h1 := Int.tdiv_add_tmod r I
      have h2 : 0 ≤ r.tmod I := Int.tmod_nonneg _ hr0
      have h3 : r.tmod I < I := by
        rw [Int.tmod_eq_emod hr0 (by omega)]
        exact Int.emod_lt_of_pos r hI
      omega
    unfold Delay.markInterval
    by_cases h300 : 300 < r
    · have := key 300 (by norm_num) (by unfold Delay.markInterval; rw [if_pos h300])
      simp only [if_pos h300]
      omega
    · by_cases h60 : 60 < r
      · have := key 60 (by norm_num)
          (by unfold Delay.markInterval; rw [if_neg h300, if_pos h60])
        simp only [if_neg h300, if_pos h60]
        omega
      · by_cases h10 : 10 < r
        · have := key 10 (by norm_num)
            (by unfold Delay.markInterval; rw [if_neg h300, if_neg h60, if_pos h10])
          simp only [if_neg h300, if_neg h60, if_pos h10]
          omega
        · have := key 1 (by norm_num)
            (by unfold Delay.markInterval; rw [if_neg h300, if_neg h60, if_neg h10])
          simp only [if_neg h300, if_neg h60, if_neg h10]
          omega
  · have hr0 : r ≤ 0 := by
      have ha := Int.tdiv_nonneg (a := -d) (b := 1000) (by omega) (by norm_num)
      have hb : (-d).tdiv 1000 = -(d.tdiv 1000) := Int.neg_tdiv d 1000
      omega
    have hI : Delay.markInterval r = 1 := by
      unfold Delay.markInterval
      rw [if_neg (by omega), if_neg (by omega), if_neg (by omega)]
    rw [hI]
    have h1 : Int.tdiv r 1 = r := Int.tdiv_one r
    rw [h1]
    have hdm := Int.tdiv_add_tmod d 1000
    have hm := Int.tmod_nonpos_of_nonpos d 1000 (le_of_lt hd0)
    omega

/-- Gap between two consecutive warning broadcasts permitted by the backoff
schedule: the later broadcast follows the earlier within one active mark
interval (chosen from the earlier broadcast's measured remaining seconds)
plus the per-iteration query latency. -/
def Delay.backoffGap (eps : Int) (a b : Int × Int) : Prop :=
  b.1 - a.1 < eps + 1000 * Delay.markInterval a.2

/-- Boundary exit of the StopDelay loop: with the process alive and the
health query validly reporting at least one player on every iteration, the
loop can only return through the while-condition finding the grace boundary
passed. -/
theorem Delay.stopDelayLoop_boundary (o : Delay.Oracle) (shutdown eps : Int)
    (hrun : ∀ i, o.running i = true)
    (hvalid : ∀ i, o.valid i = true) (hplayers : ∀ i, 0 < o.players i) :
    ∀ (fuel i : Nat) (now : Int) (acc : List (Int × Int)) (res : Delay.DelayRun),
      Delay.stopDelayLoop o shutdown eps fuel i now acc = some res →
      res.exitKind = Delay.ExitKind.boundary ∧ shutdown < res.finalNow := by
  intro fuel
  induction fuel with
  | zero => intro i now acc res h; cases h
  | succ m ih =>
    intro i now acc res h
    rw [Delay.stopDelayLoop] at h
    simp only [] at h
    split at h
    · exact absurd (hrun i) (by simpa using ‹¬ o.running i = true›)
    · split at h
      · rename_i hb
        injection h with h2
        subst h2
        exact ⟨rfl, by simpa using hb⟩
      · split at h
        · rename_i hc
          refine absurd hc ?_
          have := hplayers i
          simp [hvalid i]
          omega
        · exact ih _ _ _ _ h

/-- Backoff schedule invariant of the StopDelay loop: the recorded broadcast
trace always satisfies the gap relation, given that the seed trace does and
that the clock has not drifted a full interval past the seed's last mark. -/
theorem Delay.stopDelayLoop_chain (o : Delay.Oracle) (shutdown eps : Int) :
    ∀ (fuel i : Nat) (now : Int) (acc : List (Int × Int)) (res : Delay.DelayRun),
      Delay.stopDelayLoop o shutdown eps fuel i now acc = some res →
      List.Chain' (Delay.backoffGap eps) acc →
      (∀ p, acc.getLast? = some p →
        p.1 ≤ now ∧ now - p.1 < 1000 * Delay.markInterval p.2) →
      List.Chain' (Delay.backoffGap eps) res.marks := by
  intro fuel
  induction fuel with
  | zero => intro i now acc res h; cases h
  | succ m ih =>
    intro i now acc res h hchain hinv
    rw [Delay.stopDelayLoop] at h
    simp only [] at h
    split at h
    · injection h with h2; subst h2; exact hchain
    · split at h
      · injection h with h2; subst h2; exact hchain
      · split at h
        · injection h with h2; subst h2; exact hchain
        · refine ih _ _ _ _ h ?_ ?_
          · rw [List.chain'_append]
            refine ⟨hchain, List.chain'_singleton _, ?_⟩
            intro x hx y hy
            simp only [List.head?_cons, Option.mem_def, Option.some_inj] at hy
            subst hy
            obtain ⟨hx1, hx2⟩ := hinv x hx
            unfold Delay.backoffGap
            simp only []
            omega
          · intro p hp
            rw [List.getLast?_concat] at hp
            injection hp with hp2
            subst hp2
            dsimp only
            constructor
            · exact le_max_left _ _
            · have hbound := Delay.nextMark_lt shutdown (now + eps)
              have hIpos := Delay.markInterval_pos
                (Int.tdiv (shutdown - (now + eps)) 1000)
              rw [sub_lt_iff_lt_add]
              refine sup_lt_iff.mpr ⟨by omega, by omega⟩

/-- C6: during the shutdown-delay phase, whenever every health query validly
reports at least one connected player and the process stays up, the loop runs
until the grace boundary has passed (it exits through the while-condition
with the clock past the shutdown instant, so the polite quit is reached only
at the grace boundary); and consecutive remaining-time broadcasts follow the
backoff schedule, each gap staying within the active mark interval (300s for
more than 300 remaining seconds, 60s for more than 60, 10s for more than 10,
else 1s) plus the query latency. -/
theorem stopDelay_grace_and_backoff (o : Delay.Oracle) (shutdown eps now0 : Int)
    (fuel : Nat) (res : Delay.DelayRun)
    (hrun : ∀ i, o.running i = true) (hvalid : ∀ i, o.valid i = true)
    (hplayers : ∀ i, 0 < o.players i)
    (hres : Delay.stopDelayLoop o shutdown eps fuel 0 now0 [] = some res) :
    (res.exitKind = Delay.ExitKind.boundary ∧ shutdown < res.finalNow) ∧
    List.Chain' (Delay.backoffGap eps) res.marks ∧
    (∀ r : Int, (300 < r → Delay.markInterval r = 300) ∧
      (60 < r → r ≤ 300 → Delay.markInterval r = 60) ∧
      (10 < r → r ≤ 60 → Delay.markInterval r = 10) ∧
      (r ≤ 10 → Delay.markInterval r = 1)) := by
  refine ⟨Delay.stopDelayLoop_boundary o shutdown eps hrun hvalid hplayers
      fuel 0 now0 [] res hres,
    Delay.stopDelayLoop_chain o shutdown eps fuel 0 now0 [] res hres
      List.chain'_nil (by intro p hp; simp at hp), ?_⟩
  intro r
  refine ⟨?_, ?_, ?_, ?_⟩
  · intro h1
    unfold Delay.markInterval
    rw [if_pos h1]
  · intro h1 h2
    unfold Delay.markInterval
    rw [if_neg (by omega), if_pos h1]
  · intro h1 h2
    unfold Delay.markInterval
    rw [if_neg (by omega), if_neg (by omega), if_pos h1]
  · intro h1
    unfold Delay.markInterval
    rw [if_neg (by omega), if_neg (by omega), if_neg (by omega)]

/-- Witness for the C6 theorem: a 5-second grace with a 100ms query latency
and one player online throughout; the loop exits past the boundary at 5100ms
having broadcast at measured remainders 4, 3, 2, 1, 0, 0 on the 1-second
schedule. -/
theorem stopDelay_grace_and_backoff_witness :
    (5000 : Int)
        < (⟨5100, Delay.ExitKind.boundary,
            [(100, 4), (1100, 3), (2100, 2), (3100, 1), (4100, 0), (5100, 0)]⟩
              : Delay.DelayRun).finalNow ∧
    List.Chain' (Delay.backoffGap 100)
      (⟨5100, Delay.ExitKind.boundary,
        [(100, 4), (1100, 3), (2100, 2), (3100, 1), (4100, 0), (5100, 0)]⟩
          : Delay.DelayRun).marks := by
  have h := stopDelay_grace_and_backoff
    ⟨fun _ => true, fun _ => true, fun _ => 1⟩ 5000 100 0 10
    ⟨5100, Delay.ExitKind.boundary,
      [(100, 4), (1100, 3), (2100, 2), (3100, 1), (4100, 0), (5100, 0)]⟩
    (fun _ => rfl) (fun _ => rfl) (fun _ => by norm_num) rfl
  exact ⟨h.1.2, h.2.1⟩

end RLS
